import Mathlib

/-!
Verification development for the matrix-claude-bot repository.

This file gives a shallow embedding, in Lean 4, of the components of the
bot that the specification's claims are about:

* the Unix path functions of Go's `path/filepath` package that the code
  uses (`Clean`, `Join`, `Dir`, `Abs`, `EvalSymlinks`) over an explicit
  filesystem model with files, directories and symbolic links;
* `resolveSandboxedPath` and `isWithin` from `tool_filesystem.go`;
* the three filesystem tools' `Execute` methods (`fs_read`, `fs_write`,
  `fs_list`) from `tool_filesystem.go`;
* `mcpSchemaToAnthropicSchema` from `tool_mcp.go`;
* the `ToolRegistry` from `tools.go`;
* the `ConversationStore` and the agent loop `getClaudeResponse` from
  `internal/bot/claude.go`, with Go slice aliasing made explicit through
  a heap of backing arrays so that the copy-on-read contract of `Get`
  is a provable statement rather than a modelling artefact.

Machine integers do not overflow in any of the embedded code paths
(sizes and counts are small), so they are modelled as `Nat`/`Int`.
-/

/-! ## Go `strings` and `path/filepath` model (Unix rules)

The string helpers are written by structural recursion over the
character list of the string so that every concrete instance reduces
inside the kernel. -/

/-- Go's `strings.HasPrefix`. -/
def goHasPrefix (s pre : String) : Bool :=
  pre.data.isPrefixOf s.data

/-- Split a character list at every `/`. -/
def splitSlashAux : List Char → List Char → List (List Char)
  | [], acc => [acc.reverse]
  | c :: cs, acc =>
    if c = '/' then acc.reverse :: splitSlashAux cs []
    else splitSlashAux cs (c :: acc)

/-- Go's `strings.Split(p, "/")`. -/
def splitSlash (p : String) : List String :=
  (splitSlashAux p.data []).map (fun l => String.mk l)

/-- Go's `strings.Join(l, "/")`. -/
def joinSlash : List String → String
  | [] => ""
  | [x] => x
  | x :: y :: xs => x ++ "/" ++ joinSlash (y :: xs)

/-- One step of Go's `filepath.Clean` element processing: push a single
path element onto a reversed output stack. Empty and `.` elements are
dropped; `..` pops a previous real element, is dropped at the root of a
rooted path, and is kept otherwise. -/
def cleanPush (rooted : Bool) (acc : List String) (c : String) : List String :=
  if c = "" || c = "." then acc
  else if c = ".." then
    match acc with
    | [] => if rooted then [] else [".."]
    | a :: rest => if a = ".." then c :: a :: rest else rest
  else c :: acc

/-- Go's `filepath.Clean` on Unix: shortest lexically equivalent path. -/
def filepathClean (p : String) : String :=
  if p = "" then "."
  else
    let rooted := goHasPrefix p "/"
    let comps := splitSlash p
    let out := (comps.foldl (cleanPush rooted) []).reverse
    if rooted then "/" ++ joinSlash out
    else if out = [] then "." else joinSlash out

/-- Go's `filepath.Join` for two elements: empty elements are dropped, the
rest are joined with a separator, and the result is cleaned. -/
def filepathJoin (a b : String) : String :=
  if a = "" && b = "" then ""
  else if a = "" then filepathClean b
  else if b = "" then filepathClean a
  else filepathClean (a ++ "/" ++ b)

/-- Go's `filepath.Dir`: all but the last path element, cleaned. -/
def filepathDir (p : String) : String :=
  let comps := splitSlash p
  if comps.length ≤ 1 then filepathClean ""
  else filepathClean (joinSlash comps.dropLast ++ "/")

/-- Go's `filepath.IsAbs` on Unix. -/
def filepathIsAbs (p : String) : Bool :=
  goHasPrefix p "/"

/-- Go's `filepath.Abs` relative to an explicit working directory `cwd`
(the Go function reads the process working directory): an absolute path
is cleaned, a relative one is joined onto `cwd`. -/
def filepathAbs (cwd p : String) : String :=
  if filepathIsAbs p then filepathClean p else filepathJoin cwd p

/-- The separator-aware containment check from `tool_filesystem.go`:
`path == dir || strings.HasPrefix(path, dir + "/")`. -/
def isWithin (path dir : String) : Bool :=
  path = dir || goHasPrefix path (dir ++ "/")

/-! ## Filesystem model with symlinks -/

/-- A node of the modelled filesystem: a regular file with its contents,
a directory, or a symbolic link with its (possibly dangling) target. -/
inductive FsNode where
  | file (content : String)
  | dir
  | symlink (target : String)
deriving Repr, DecidableEq

/-- A filesystem: a finite map from absolute cleaned paths to nodes. -/
structure Fs where
  nodes : List (String × FsNode)
deriving Repr, DecidableEq

def Fs.lookup (fs : Fs) (p : String) : Option FsNode :=
  (fs.nodes.find? (fun q => q.1 = p)).map (fun q => q.2)

/-- Append one component below a resolved directory path. -/
def childPath (d c : String) : String :=
  if d = "/" then "/" ++ c else d ++ "/" ++ c

/-- Component-by-component symlink resolution, as Go's
`filepath.EvalSymlinks` does on Unix: every component (the final one
included) must exist; a symlink component splices its target's
components in front of the remaining ones; `fuel` bounds the number of
link expansions (Go errors out after too many links, modelled as
`none`). `none` models any error return of `EvalSymlinks`. -/
def walkSymlinks (fs : Fs) : Nat → String → List String → Option String
  | _, resolved, [] => some resolved
  | 0, _, _ :: _ => none
  | fuel + 1, resolved, c :: rest =>
    if c = "" || c = "." then walkSymlinks fs fuel resolved rest
    else if c = ".." then walkSymlinks fs fuel (filepathDir resolved) rest
    else
      let cand := childPath resolved c
      match fs.lookup cand with
      | none => none
      | some (FsNode.symlink tgt) =>
        if goHasPrefix tgt "/" then walkSymlinks fs fuel "/" (splitSlash tgt ++ rest)
        else walkSymlinks fs fuel resolved (splitSlash tgt ++ rest)
      | some _ => walkSymlinks fs fuel cand rest

/-- Go's `filepath.EvalSymlinks` on an absolute path. -/
def evalSymlinks (fs : Fs) (p : String) : Option String :=
  walkSymlinks fs (4096 + p.length) "/" (splitSlash p)

/-- The path a write through `os.WriteFile` (that is, `open(2)` with
`O_CREATE`) ultimately affects: like `walkSymlinks`, but the final
component may not exist yet (it is created), and a symlink in final
position is followed even when its target does not exist. This is not
part of the analysed code; it states what the operating system does
with a path the resolver has accepted, and is used to express the
no-escape guarantee of the specification. -/
def writeWalk (fs : Fs) : Nat → String → List String → Option String
  | _, resolved, [] => some resolved
  | 0, _, _ :: _ => none
  | fuel + 1, resolved, c :: rest =>
    if c = "" || c = "." then writeWalk fs fuel resolved rest
    else if c = ".." then writeWalk fs fuel (filepathDir resolved) rest
    else
      let cand := childPath resolved c
      match fs.lookup cand with
      | none => if rest.isEmpty then some cand else none
      | some (FsNode.symlink tgt) =>
        if goHasPrefix tgt "/" then writeWalk fs fuel "/" (splitSlash tgt ++ rest)
        else writeWalk fs fuel resolved (splitSlash tgt ++ rest)
      | some _ => writeWalk fs fuel cand rest

/-- The location a write to path `p` ultimately lands at. -/
def writeTarget (fs : Fs) (p : String) : Option String :=
  writeWalk fs (4096 + p.length) "/" (splitSlash p)

/-! ## The sandboxed path resolver (`tool_filesystem.go`) -/

/-- The two error conditions `resolveSandboxedPath` can report. -/
inductive ResolveError where
  | emptyPath
  | pathEscape
deriving Repr, DecidableEq

/-- The error strings the Go code produces for each condition. -/
def ResolveError.message : ResolveError → String
  | ResolveError.emptyPath => "path is empty"
  | ResolveError.pathEscape => "path escapes sandbox"

/-- The ancestor walk of `resolveSandboxedPath`: when the joined path
does not exist, walk up to the nearest existing ancestor, resolve its
symlinks, and validate it against the resolved sandbox; if no ancestor
ever resolves, accept the joined path. `fuel` bounds the walk (the Go
loop stops when `Dir` reaches a fixed point). -/
def ancestorLoop (fs : Fs) (resolvedSandbox joined : String) :
    Nat → String → Except ResolveError String
  | 0, _ => Except.ok joined
  | fuel + 1, ancestor =>
    let parent := filepathDir ancestor
    if parent = ancestor then Except.ok joined
    else
      match evalSymlinks fs parent with
      | some resolvedAncestor =>
        if isWithin resolvedAncestor resolvedSandbox then Except.ok joined
        else Except.error ResolveError.pathEscape
      | none => ancestorLoop fs resolvedSandbox joined fuel parent

/-- The joined-and-cleaned candidate path that `resolveSandboxedPath`
validates: `filepath.Join(absSandbox, filepath.Clean(path))`. -/
def joinedPath (cwd sandboxDir path : String) : String :=
  filepathJoin (filepathAbs cwd sandboxDir) (filepathClean path)

/-- Shallow embedding of `resolveSandboxedPath` from `tool_filesystem.go`,
with the filesystem and the working directory (used by `filepath.Abs`)
made explicit. -/
def resolveSandboxedPath (fs : Fs) (cwd sandboxDir path : String) :
    Except ResolveError String :=
  if path = "" then Except.error ResolveError.emptyPath
  else
    let absSandbox := filepathAbs cwd sandboxDir
    let joined := joinedPath cwd sandboxDir path
    if isWithin joined absSandbox then
      match evalSymlinks fs joined with
      | some resolved =>
        let resolvedSandbox := (evalSymlinks fs absSandbox).getD ""
        if isWithin resolved resolvedSandbox then Except.ok resolved
        else Except.error ResolveError.pathEscape
      | none =>
        let resolvedSandbox := (evalSymlinks fs absSandbox).getD ""
        ancestorLoop fs resolvedSandbox joined (joined.length + 2) joined
    else Except.error ResolveError.pathEscape

/-! ## JSON values (Go `any` after `encoding/json` unmarshaling) -/

/-- A JSON value as Go's `encoding/json` produces it into `any`:
`nil`, `bool`, a number, `string`, `[]any` or `map[string]any`. -/
inductive GoValue where
  | null
  | bool (b : Bool)
  | num (n : Int)
  | str (s : String)
  | arr (xs : List GoValue)
  | obj (fields : List (String × GoValue))
deriving Repr

/-- Lookup in a `map[string]any`. -/
def lookupField (fields : List (String × GoValue)) (k : String) : Option GoValue :=
  (fields.find? (fun f => f.1 = k)).map (fun f => f.2)

/-- Is the value a `map[string]any` (the type assertion in
`mcpSchemaToAnthropicSchema`)? -/
def GoValue.isObj : GoValue → Bool
  | GoValue.obj _ => true
  | _ => false

/-! ## MCP schema translation (`tool_mcp.go`) -/

/-- The Anthropic SDK's tool input schema shape: a property map and a
required-field list. -/
structure ToolInputSchemaParam where
  properties : GoValue
  required : List String
deriving Repr

/-- Shallow embedding of `mcpSchemaToAnthropicSchema` from
`tool_mcp.go`. The Go parameter has type `any`; `none` models a nil
interface value. -/
def mcpSchemaToAnthropicSchema : Option GoValue → ToolInputSchemaParam
  | none => ⟨GoValue.obj [], []⟩
  | some v =>
    match v with
    | GoValue.obj m =>
      let props :=
        match lookupField m "properties" with
        | some p => p
        | none => GoValue.obj []
      let req :=
        match lookupField m "required" with
        | some (GoValue.arr xs) =>
          xs.filterMap (fun x =>
            match x with
            | GoValue.str s => some s
            | _ => none)
        | _ => []
      ⟨props, req⟩
    | _ => ⟨GoValue.obj [], []⟩

/-! ## The filesystem tools (`tool_filesystem.go`) -/

/-- Size ceiling for `fs_read`: `1 << 20` bytes. -/
def maxFileReadSize : Nat := 1 <<< 20

/-- Entry-count ceiling for `fs_list`. -/
def maxListEntries : Nat := 200

/-- The `(result string, isError bool, err error)` triple every tool's
`Execute` returns; the Go `error` is `none` when nil. -/
structure ExecResult where
  result : String
  isError : Bool
  goErr : Option String
deriving Repr, DecidableEq

/-- Unmarshal one string field of a JSON object as
`encoding/json` does into a Go `string` struct field: a missing key or
JSON null leaves the zero value, a string is taken, any other value is
a type error. -/
def unmarshalStringField (fields : List (String × GoValue)) (k : String) :
    Except String String :=
  match lookupField fields k with
  | none => Except.ok ""
  | some GoValue.null => Except.ok ""
  | some (GoValue.str s) => Except.ok s
  | some _ => Except.error ("json: cannot unmarshal value into Go struct field " ++ k)

/-- The input struct of `fs_read`. -/
structure FsReadInput where
  path : String
deriving Repr, DecidableEq

/-- `json.Unmarshal` into `fsReadInput`: a JSON object or null
succeeds, anything else is a type error. -/
def unmarshalFsReadInput : GoValue → Except String FsReadInput
  | GoValue.obj fields => (unmarshalStringField fields "path").map (fun s => ⟨s⟩)
  | GoValue.null => Except.ok ⟨""⟩
  | _ => Except.error "json: cannot unmarshal value into Go value of type fsReadInput"

/-- The input struct of `fs_write`. -/
structure FsWriteInput where
  path : String
  content : String
deriving Repr, DecidableEq

/-- `json.Unmarshal` into `fsWriteInput`. -/
def unmarshalFsWriteInput : GoValue → Except String FsWriteInput
  | GoValue.obj fields =>
    match unmarshalStringField fields "path", unmarshalStringField fields "content" with
    | Except.ok p, Except.ok c => Except.ok ⟨p, c⟩
    | Except.error e, _ => Except.error e
    | _, Except.error e => Except.error e
  | GoValue.null => Except.ok ⟨"", ""⟩
  | _ => Except.error "json: cannot unmarshal value into Go value of type fsWriteInput"

/-- The input struct of `fs_list` (same single `path` field). -/
structure FsListInput where
  path : String
deriving Repr, DecidableEq

/-- `json.Unmarshal` into `fsListInput`. -/
def unmarshalFsListInput : GoValue → Except String FsListInput
  | GoValue.obj fields => (unmarshalStringField fields "path").map (fun s => ⟨s⟩)
  | GoValue.null => Except.ok ⟨""⟩
  | _ => Except.error "json: cannot unmarshal value into Go value of type fsListInput"

/-- Go's `os.Stat`: follow all symlinks, then report the node; an error
(no such file, dangling link, too many links) is `none`. -/
def osStat (fs : Fs) (p : String) : Option FsNode :=
  match evalSymlinks fs p with
  | none => none
  | some q =>
    match fs.lookup q with
    | some (FsNode.symlink _) => none
    | r => r

/-- Shallow embedding of `fsReadTool.Execute`. -/
def fsReadExecute (fs : Fs) (cwd sandboxDir : String) (input : GoValue) : ExecResult :=
  match unmarshalFsReadInput input with
  | Except.error e => ⟨"invalid input: " ++ e, true, none⟩
  | Except.ok params =>
    match resolveSandboxedPath fs cwd sandboxDir params.path with
    | Except.error err => ⟨err.message, true, none⟩
    | Except.ok resolved =>
      match osStat fs resolved with
      | none => ⟨"file not found: " ++ params.path, true, none⟩
      | some FsNode.dir => ⟨"path is a directory, use fs_list instead", true, none⟩
      | some (FsNode.symlink _) => ⟨"file not found: " ++ params.path, true, none⟩
      | some (FsNode.file content) =>
        if content.length > maxFileReadSize then
          ⟨"file too large: " ++ toString content.length ++ " bytes (max "
            ++ toString maxFileReadSize ++ ")", true, none⟩
        else ⟨content, false, none⟩

/-- Shallow embedding of `fsWriteTool.Execute`. `os.MkdirAll` and
`os.WriteFile` themselves are not modelled beyond their success path
(their failures are also returned as tool-level errors in the code);
the write's effect on the filesystem is outside the returned triple. -/
def fsWriteExecute (fs : Fs) (cwd sandboxDir : String) (input : GoValue) : ExecResult :=
  match unmarshalFsWriteInput input with
  | Except.error e => ⟨"invalid input: " ++ e, true, none⟩
  | Except.ok params =>
    match resolveSandboxedPath fs cwd sandboxDir params.path with
    | Except.error err => ⟨err.message, true, none⟩
    | Except.ok _ =>
      ⟨"wrote " ++ toString params.content.length ++ " bytes to " ++ params.path,
        false, none⟩

/-- The final component of a path. -/
def baseName (p : String) : String :=
  match (splitSlash p).getLast? with
  | some b => b
  | none => p

/-- Insertion into a name-sorted entry list. -/
def insertEntry (x : String × Bool) : List (String × Bool) → List (String × Bool)
  | [] => [x]
  | y :: ys => if x.1 ≤ y.1 then x :: y :: ys else y :: insertEntry x ys

/-- Go's `os.ReadDir`: the children of a directory as
(name, isDir) pairs sorted by filename; an error for anything that is
not a directory. -/
def osReadDir (fs : Fs) (p : String) : Except String (List (String × Bool)) :=
  match osStat fs p with
  | some FsNode.dir =>
    let children := fs.nodes.filterMap (fun q =>
      if filepathDir q.1 = p && q.1 ≠ p then
        some (baseName q.1, match q.2 with | FsNode.dir => true | _ => false)
      else none)
    Except.ok (children.foldr insertEntry [])
  | _ => Except.error "not a directory"

/-- The entry formatting of `fsListTool.Execute`: one `name[/]` line per
entry up to `maxListEntries`, then a truncation marker. -/
def formatListEntries (entries : List (String × Bool)) : String :=
  let shown := entries.take maxListEntries
  let body := String.join (shown.map (fun e => e.1 ++ (if e.2 then "/" else "") ++ "\n"))
  if entries.length > maxListEntries then
    body ++ "... and " ++ toString (entries.length - maxListEntries) ++ " more entries\n"
  else body

/-- Shallow embedding of `fsListTool.Execute`. -/
def fsListExecute (fs : Fs) (cwd sandboxDir : String) (input : GoValue) : ExecResult :=
  match unmarshalFsListInput input with
  | Except.error e => ⟨"invalid input: " ++ e, true, none⟩
  | Except.ok params =>
    let path := if params.path = "" then "." else params.path
    match resolveSandboxedPath fs cwd sandboxDir path with
    | Except.error err => ⟨err.message, true, none⟩
    | Except.ok resolved =>
      match osReadDir fs resolved with
      | Except.error e => ⟨"failed to list directory: " ++ e, true, none⟩
      | Except.ok entries =>
        let out := formatListEntries entries
        if out.length = 0 then ⟨"(empty directory)", false, none⟩
        else ⟨out, false, none⟩

/-! ## Messages and model responses (Anthropic SDK shapes) -/

/-- Go's `strings.Join(l, "\n")`. -/
def joinNewline : List String → String
  | [] => ""
  | [x] => x
  | x :: y :: xs => x ++ "\n" ++ joinNewline (y :: xs)

/-- The role of a message param. -/
inductive Role where
  | user
  | assistant
deriving Repr, DecidableEq

/-- One content block of a message or response: text, a tool-invocation
request from the model, or a tool result sent back to it. `thinking`
stands for any other block type (the code switches on `block.Type`). -/
inductive ContentBlock where
  | text (s : String)
  | toolUse (id : String) (name : String) (input : GoValue)
  | toolResult (toolUseId : String) (content : String) (isError : Bool)
  | thinking
deriving Repr

/-- `anthropic.MessageParam`: a role-tagged content list. -/
structure MessageParam where
  role : Role
  content : List ContentBlock
deriving Repr

/-- `anthropic.NewUserMessage`. -/
def NewUserMessage (blocks : List ContentBlock) : MessageParam :=
  ⟨Role.user, blocks⟩

/-- `anthropic.NewToolResultBlock`. -/
def NewToolResultBlock (toolUseId result : String) (isError : Bool) : ContentBlock :=
  ContentBlock.toolResult toolUseId result isError

/-- The stop reason of a model response. -/
inductive StopReason where
  | endTurn
  | toolUse
  | maxTokens
  | other
deriving Repr, DecidableEq

/-- `anthropic.Message`: a model response. -/
structure Message where
  content : List ContentBlock
  stopReason : StopReason
deriving Repr

/-- `resp.ToParam()`: a response re-enters history as an assistant
message. -/
def Message.toParam (m : Message) : MessageParam :=
  ⟨Role.assistant, m.content⟩

/-- `extractText` from `internal/bot/claude.go`: the text blocks of a
response, newline-joined in order, skipping non-text blocks. -/
def extractText (content : List ContentBlock) : String :=
  joinNewline (content.filterMap (fun block =>
    match block with
    | ContentBlock.text s => some s
    | _ => none))

/-! ## The tool registry (`tools.go`) -/

/-- A tool definition: name, description and input schema. -/
structure ToolDef where
  name : String
  description : String
  inputSchema : ToolInputSchemaParam
deriving Repr

/-- `anthropic.ToolUnionParam`: either an ordinary (local) tool
definition or a server-side tool declaration such as web search. -/
inductive ToolUnionParam where
  | ofTool (t : ToolDef)
  | ofWebSearchTool
deriving Repr

/-- A locally-executed tool: its name, its definition, and its
`Execute` behaviour as a function from the JSON input to the result
triple. -/
structure RegisteredTool where
  name : String
  definition : ToolUnionParam
  exec : GoValue → ExecResult

/-- Insert or overwrite a key in an association list, as assignment
into a Go map. -/
def upsertTool (m : List (String × RegisteredTool)) (k : String) (v : RegisteredTool) :
    List (String × RegisteredTool) :=
  if (m.find? (fun q => q.1 = k)).isSome then
    m.map (fun q => if q.1 = k then (k, v) else q)
  else m ++ [(k, v)]

/-- The `ToolRegistry`: locally-executed tools keyed by name, plus
opaque server-side declarations. The Go map's iteration order is
unspecified; the association list fixes insertion order, which claims
must not (and do not) depend on. -/
structure ToolRegistry where
  localTools : List (String × RegisteredTool)
  serverTools : List ToolUnionParam

/-- `NewToolRegistry`. -/
def NewToolRegistry : ToolRegistry := ⟨[], []⟩

/-- `Register`: insert/overwrite a local tool under its name. -/
def ToolRegistry.register (r : ToolRegistry) (t : RegisteredTool) : ToolRegistry :=
  ⟨upsertTool r.localTools t.name t, r.serverTools⟩

/-- `AddServerTool`. -/
def ToolRegistry.addServerTool (r : ToolRegistry) (t : ToolUnionParam) : ToolRegistry :=
  ⟨r.localTools, r.serverTools ++ [t]⟩

/-- `Definitions`: every local tool's definition plus every server
declaration. -/
def ToolRegistry.definitions (r : ToolRegistry) : List ToolUnionParam :=
  r.localTools.map (fun q => q.2.definition) ++ r.serverTools

/-- `Execute`: dispatch to a local tool by name, or fail with the
unknown-tool error (a non-nil Go error with empty result). -/
def ToolRegistry.execute (r : ToolRegistry) (name : String) (input : GoValue) : ExecResult :=
  match r.localTools.find? (fun q => q.1 = name) with
  | none => ⟨"", false, some ("unknown tool: " ++ name)⟩
  | some q => q.2.exec input

/-- `HasLocalTool`. -/
def ToolRegistry.hasLocalTool (r : ToolRegistry) (name : String) : Bool :=
  (r.localTools.find? (fun q => q.1 = name)).isSome

/-- `IsEmpty`: no local and no server tools. -/
def ToolRegistry.isEmpty (r : ToolRegistry) : Bool :=
  r.localTools.isEmpty && r.serverTools.isEmpty

/-- `HasServerTools`. -/
def ToolRegistry.hasServerTools (r : ToolRegistry) : Bool :=
  !r.serverTools.isEmpty

/-- Insertion into a sorted string list (`sort.Strings`). -/
def insertSorted (x : String) : List String → List String
  | [] => [x]
  | y :: ys => if x ≤ y then x :: y :: ys else y :: insertSorted x ys

/-- `LocalToolNames`: the local tool names, lexicographically sorted. -/
def ToolRegistry.localToolNames (r : ToolRegistry) : List String :=
  (r.localTools.map (fun q => q.1)).foldr insertSorted []

/-! ## The conversation store (`internal/bot/claude.go`)

Go slices alias a backing array; `Get` deliberately copies the stored
history into a fresh array before returning it, so callers can never
mutate the stored one. To make that copy provable rather than assumed,
the model carries an explicit heap of backing arrays: the store's own
histories live behind references in `convs`, `get` allocates a fresh
heap cell holding the copy and returns its reference (with its value),
and `mutate` writes through an arbitrary reference, which models
whatever the caller does to the slice it received. -/

/-- The conversation store: a heap of backing arrays and a map from
thread id to the reference of its stored history. -/
structure ConversationStore where
  heap : List (List MessageParam)
  convs : String → Option Nat

/-- `NewConversationStore`. -/
def NewConversationStore : ConversationStore := ⟨[], fun _ => none⟩

/-- The reference of a thread's stored history, if any. -/
def ConversationStore.refOf (s : ConversationStore) (threadID : String) : Option Nat :=
  s.convs threadID

/-- The value of a thread's stored history (`s.convs[threadID]`,
`nil` for an unknown key reading as the empty slice). -/
def ConversationStore.storedHistory (s : ConversationStore) (threadID : String) :
    List MessageParam :=
  match s.refOf threadID with
  | some r => s.heap.getD r []
  | none => []

/-- `Get`: copy the stored history into a fresh backing array; return
the updated store, the fresh reference, and the copied value. -/
def ConversationStore.get (s : ConversationStore) (threadID : String) :
    ConversationStore × Nat × List MessageParam :=
  let copied := s.storedHistory threadID
  (⟨s.heap ++ [copied], s.convs⟩, s.heap.length, copied)

/-- `Append`: `s.convs[threadID] = append(s.convs[threadID], msgs...)`.
Whether Go grows the array in place or reallocates is unobservable
(the stored array is never aliased, because `Get` hands out copies), so
the model always allocates. -/
def ConversationStore.append (s : ConversationStore) (threadID : String)
    (msgs : List MessageParam) : ConversationStore :=
  ⟨s.heap ++ [s.storedHistory threadID ++ msgs],
    fun k => if k = threadID then some s.heap.length else s.convs k⟩

/-- Mutation of a slice through a reference a caller holds: overwrite
index `i` of that backing array. -/
def ConversationStore.mutate (s : ConversationStore) (ref i : Nat) (v : MessageParam) :
    ConversationStore :=
  ⟨s.heap.set ref ((s.heap.getD ref []).set i v), s.convs⟩

/-- Well-formedness: every stored reference points into the heap. -/
def ConversationStore.WF (s : ConversationStore) : Prop :=
  ∀ (threadID : String) (r : Nat), s.convs threadID = some r → r < s.heap.length

/-! ## The agent loop (`internal/bot/claude.go`) -/

/-- The configuration fields `getClaudeResponse` reads. `toolTimeout`
bounds each tool execution in seconds; real time is not modelled, a
timeout surfaces as the tool's own error outcome. -/
structure Config where
  model : String
  maxTokens : Nat
  systemPrompt : String
  maxToolIterations : Int
  toolTimeout : Int
deriving Repr

/-- `anthropic.MessageNewParams`: one model request. `system` is the
optional system text block list, `tools` the tool definitions sent
(empty when none are sent). -/
structure MessageNewParams where
  model : String
  messages : List MessageParam
  maxTokens : Nat
  system : List String
  tools : List ToolUnionParam

/-- The bot (Go type `Bot`; named `ClaudeBot` here because `Bot` is
taken by Mathlib): the injected messenger (`ClaudeMessenger.NewMessage`,
a function from request params to a response or a transport error), the
configuration, and the possibly-nil tool registry. The conversation
store is threaded explicitly as state. -/
structure ClaudeBot where
  claude : MessageNewParams → Except String Message
  config : Config
  tools : Option ToolRegistry

/-- `b.tools != nil && !b.tools.IsEmpty()` — the nil check short-circuits,
so a nil registry is never dereferenced. -/
def ClaudeBot.hasTools (b : ClaudeBot) : Bool :=
  match b.tools with
  | none => false
  | some r => !r.isEmpty

/-- Deduplication keeping first occurrences (the `seen` map in
`toolCapabilitiesPrompt`). -/
def dedupKeepFirst : List String → List String → List String
  | _, [] => []
  | seen, p :: ps =>
    if seen.contains p then dedupKeepFirst seen ps
    else p :: dedupKeepFirst (p :: seen) ps

/-- `toolCapabilitiesPrompt`: a generated system-prompt section listing
one plain-language line per distinct registered capability. -/
def toolCapabilitiesPrompt (b : ClaudeBot) : String :=
  match b.tools with
  | none => ""
  | some reg =>
    if reg.isEmpty then ""
    else
      let serverParts :=
        if reg.hasServerTools then
          ["- Web search: you can search the web for current information"]
        else []
      let localParts := reg.localToolNames.map (fun name =>
        if goHasPrefix name "fs_" then
          "- Filesystem: you can read, write, and list files in a sandboxed directory"
        else "- " ++ name)
      let parts := serverParts ++ localParts
      if parts.isEmpty then ""
      else
        "\n\nYou have access to the following tools:\n"
          ++ joinNewline (dedupKeepFirst [] parts)

/-- The tool definitions the loop attaches to a request when
`hasTools` holds. -/
def ClaudeBot.toolDefs (b : ClaudeBot) : List ToolUnionParam :=
  match b.tools with
  | none => []
  | some r => r.definitions

/-- Building one model request, as the loop body does. -/
def mkParams (b : ClaudeBot) (history : List MessageParam) : MessageNewParams :=
  let systemPrompt := b.config.systemPrompt ++ toolCapabilitiesPrompt b
  { model := b.config.model
    messages := history
    maxTokens := b.config.maxTokens
    system := if systemPrompt = "" then [] else [systemPrompt]
    tools := if b.hasTools then b.toolDefs else [] }

/-- `b.tools.HasLocalTool(name)` guarded by the nil check. -/
def ClaudeBot.hasLocalTool (b : ClaudeBot) (name : String) : Bool :=
  match b.tools with
  | none => false
  | some r => r.hasLocalTool name

/-- The handling of one content block of a tool-use response: a
tool-use block naming a registered local tool is executed (under its
own timeout scope) and becomes a tool-result block; a non-nil execution
error (a timeout included) is converted to a generic internal-error
result with the error flag set; everything else is skipped. -/
def toolUseResult (b : ClaudeBot) (block : ContentBlock) : Option ContentBlock :=
  match block with
  | ContentBlock.toolUse id name input =>
    if b.hasLocalTool name then
      match b.tools with
      | none => none
      | some r =>
        let out := r.execute name input
        match out.goErr with
        | some _ => some (NewToolResultBlock id "internal error executing tool" true)
        | none => some (NewToolResultBlock id out.result out.isError)
    else none
  | _ => none

/-- All tool results collected in one iteration. -/
def collectToolResults (b : ClaudeBot) (content : List ContentBlock) : List ContentBlock :=
  content.filterMap (toolUseResult b)

/-- The outcome of a `getClaudeResponse` run: the returned
`(string, error)` pair, the number of model calls made (a ghost
counter for the statements), and the final store. -/
structure RunOutcome where
  text : String
  goErr : Option String
  calls : Nat
  store : ConversationStore

/-- The iteration loop of `getClaudeResponse`, by remaining budget. -/
def runIterations (b : ClaudeBot) (threadID : String) :
    Nat → Nat → ConversationStore → RunOutcome
  | 0, calls, store => ⟨"reached maximum tool use iterations", none, calls, store⟩
  | rem + 1, calls, store =>
    let g := store.get threadID
    let params := mkParams b g.2.2
    match b.claude params with
    | Except.error e => ⟨"", some ("claude API call failed: " ++ e), calls + 1, g.1⟩
    | Except.ok resp =>
      let store2 := g.1.append threadID [resp.toParam]
      if resp.stopReason ≠ StopReason.toolUse then
        ⟨extractText resp.content, none, calls + 1, store2⟩
      else if b.hasTools = false then
        ⟨extractText resp.content, none, calls + 1, store2⟩
      else
        let toolResults := collectToolResults b resp.content
        if toolResults.isEmpty then
          ⟨extractText resp.content, none, calls + 1, store2⟩
        else
          runIterations b threadID rem (calls + 1)
            (store2.append threadID [NewUserMessage toolResults])

/-- The clamped iteration budget: a non-positive configured maximum is
treated as exactly 1. -/
def effectiveMaxIterations (cfg : Config) : Nat :=
  if cfg.maxToolIterations ≤ 0 then 1 else cfg.maxToolIterations.toNat

/-- The user message appended at the start of a run. -/
def userTextMessage (t : String) : MessageParam :=
  NewUserMessage [ContentBlock.text t]

/-- Shallow embedding of `getClaudeResponse` from
`internal/bot/claude.go`. -/
def getClaudeResponse (b : ClaudeBot) (store : ConversationStore) (threadID userText : String) :
    RunOutcome :=
  let store1 := store.append threadID [userTextMessage userText]
  runIterations b threadID (effectiveMaxIterations b.config) 0 store1

/-! ## Concrete fixtures used by counterexamples and witnesses -/

/-- A sandbox at `/s` containing a dangling symbolic link `/s/link`
whose target `/outside/gone` lies outside the sandbox and does not
exist. -/
def danglingLinkFs : Fs :=
  Fs.mk [("/s", FsNode.dir), ("/s/link", FsNode.symlink "/outside/gone"),
         ("/outside", FsNode.dir)]

/-- A sandbox at `/s` containing one regular file. -/
def plainSandboxFs : Fs :=
  Fs.mk [("/s", FsNode.dir), ("/s/a.txt", FsNode.file "hi")]

/-- A sandbox at `/s` containing one subdirectory. -/
def dirCaseFs : Fs := Fs.mk [("/s", FsNode.dir), ("/s/subdir", FsNode.dir)]

/-- A file body of exactly `maxFileReadSize` bytes. -/
def exactCeilingContent : String := String.mk (List.replicate 1048576 'a')

/-- A sandbox at `/s` containing a file of exactly the size ceiling. -/
def exactCeilingFs : Fs :=
  Fs.mk [("/s", FsNode.dir), ("/s/big", FsNode.file exactCeilingContent)]

/-- A trivial local tool used by loop fixtures. -/
def echoToolDef : ToolDef := ⟨"echo", "echoes", ⟨GoValue.obj [], []⟩⟩

/-- The registered form of the trivial tool: it always succeeds. -/
def echoTool : RegisteredTool :=
  ⟨"echo", ToolUnionParam.ofTool echoToolDef, fun _ => ⟨"ok", false, none⟩⟩

/-- A bot whose model always requests the registered `echo` tool, with
an iteration cap of 3. -/
def loopBot : ClaudeBot :=
  ⟨fun _ => Except.ok ⟨[ContentBlock.toolUse "tu1" "echo" GoValue.null], StopReason.toolUse⟩,
   ⟨"claude-sonnet-4-20250514", 1024, "", 3, 0⟩,
   some (NewToolRegistry.register echoTool)⟩

/-- A bot whose model call always fails. -/
def failBot : ClaudeBot :=
  ⟨fun _ => Except.error "API unavailable",
   ⟨"claude-sonnet-4-20250514", 1024, "", 10, 0⟩, none⟩

/-- A bot with a nil tool registry whose model nevertheless answers
with stop reason tool use. -/
def nilRegistryBot : ClaudeBot :=
  ⟨fun _ => Except.ok ⟨[ContentBlock.text "hi there",
      ContentBlock.toolUse "tu9" "ghost" GoValue.null], StopReason.toolUse⟩,
   ⟨"claude-sonnet-4-20250514", 1024, "", 5, 0⟩, none⟩

/-- A model behaviour under which every call succeeds with stop reason
tool use and the response carries at least one tool-use block naming a
registered local tool. -/
def alwaysRequestsTools (b : ClaudeBot) : Prop :=
  ∀ p : MessageNewParams, ∃ r : Message,
    b.claude p = Except.ok r
      ∧ r.stopReason = StopReason.toolUse
      ∧ ∃ id name input, ContentBlock.toolUse id name input ∈ r.content
          ∧ b.hasLocalTool name = true

/-! ## Claim C1: traversal rejection by the resolver -/

/-- C1: for every root directory R and input path P whose cleaned form,
joined onto the absolute root, is not contained in the root (the `..`
traversal case), `resolveSandboxedPath` fails with the path-escape
error for every filesystem — in particular also when P names a file
that does not exist, since the check precedes any filesystem access.
The containment check is separator-aware: the sibling `/root2` is not
within root `/root`, and the input `../root2` against root `/root` is
rejected end to end. -/
theorem resolveSandboxedPath_rejects_traversal :
    (∀ (fs : Fs) (cwd R P : String), P ≠ "" →
        isWithin (joinedPath cwd R P) (filepathAbs cwd R) = false →
        resolveSandboxedPath fs cwd R P = Except.error ResolveError.pathEscape)
      ∧ isWithin "/root2" "/root" = false
      ∧ (∀ fs : Fs, resolveSandboxedPath fs "/" "/root" "../root2" =
          Except.error ResolveError.pathEscape) := by
  have main : ∀ (fs : Fs) (cwd R P : String), P ≠ "" →
      isWithin (joinedPath cwd R P) (filepathAbs cwd R) = false →
      resolveSandboxedPath fs cwd R P = Except.error ResolveError.pathEscape :=
    fun fs cwd R P hP h => by simp [resolveSandboxedPath, hP, h]
  exact ⟨main, by rfl, fun fs => main fs "/" "/root" "../root2" (by decide) (by rfl)⟩

/-- Witness for C1: the traversal input `../root2` against root `/root`
is rejected on the empty filesystem (the target does not exist). -/
theorem resolveSandboxedPath_rejects_traversal_witness :
    resolveSandboxedPath (Fs.mk []) "/" "/root" "../root2" =
      Except.error ResolveError.pathEscape :=
  resolveSandboxedPath_rejects_traversal.1 (Fs.mk []) "/" "/root" "../root2"
    (by decide) (by rfl)

/-! ## Claim C2: symlink containment -/

/-- C2 counterexample: with a dangling symlink `/s/link → /outside/gone`
inside the sandbox root `/s`, `resolveSandboxedPath` ACCEPTS the input
`link` (symlink resolution of the joined path fails because the target
does not exist, the ancestor walk then validates `/s` itself and
accepts the unresolved joined path), yet a write through the accepted
path `/s/link` lands at `/outside/gone`, outside the sandbox root —
both against the literal root and against the symlink-resolved root.
So an input that resolves through an outside-pointing symlink is
accepted, refuting the claim's universal no-escape guarantee. -/
theorem resolveSandboxedPath_dangling_symlink_escape :
    resolveSandboxedPath danglingLinkFs "/" "/s" "link" = Except.ok "/s/link"
      ∧ writeTarget danglingLinkFs "/s/link" = some "/outside/gone"
      ∧ isWithin "/outside/gone" "/s" = false
      ∧ isWithin "/outside/gone" ((evalSymlinks danglingLinkFs "/s").getD "") = false :=
  ⟨by rfl, by rfl, by rfl, by rfl⟩

/-- C2 as amended: whenever the joined path fully resolves (every
component, symlinks included, exists — the "joined path exists" case of
the claim), every accepted result of `resolveSandboxedPath` is
contained in the symlink-resolved sandbox root; in particular any input
whose full symlink resolution lands outside the root is rejected. (The
not-yet-existing case validates only the nearest existing ancestor and
admits the dangling-symlink escape exhibited by the counterexample.) -/
theorem resolveSandboxedPath_resolved_ok_within (fs : Fs) (cwd R P res : String)
    (hok : resolveSandboxedPath fs cwd R P = Except.ok res)
    (hex : (evalSymlinks fs (joinedPath cwd R P)).isSome = true) :
    isWithin res ((evalSymlinks fs (filepathAbs cwd R)).getD "") = true := by
  by_cases hP : P = ""
  · subst hP; simp [resolveSandboxedPath] at hok
  · rw [resolveSandboxedPath, if_neg hP] at hok
    cases hres : evalSymlinks fs (joinedPath cwd R P) with
    | none => rw [hres] at hex; simp at hex
    | some r =>
      simp only [hres] at hok
      by_cases hW : isWithin (joinedPath cwd R P) (filepathAbs cwd R) = true
      · rw [if_pos hW] at hok
        by_cases hV : isWithin r ((evalSymlinks fs (filepathAbs cwd R)).getD "") = true
        · rw [if_pos hV] at hok
          cases hok
          exact hV
        · rw [if_neg hV] at hok
          cases hok
      · rw [if_neg hW] at hok
        cases hok

/-- Witness for the amended C2 theorem: the accepted, fully-resolving
path `/s/a.txt` is within the resolved sandbox root. -/
theorem resolveSandboxedPath_resolved_ok_within_witness :
    isWithin "/s/a.txt" ((evalSymlinks plainSandboxFs (filepathAbs "/" "/s")).getD "") = true :=
  resolveSandboxedPath_resolved_ok_within plainSandboxFs "/" "/s" "a.txt" "/s/a.txt"
    (by rfl) (by rfl)

/-! ## Claim C5: the conversation store contract -/

theorem getD_concat_length (l : List (List MessageParam)) (x d : List MessageParam) :
    (l ++ [x]).getD l.length d = x := by
  rw [List.getD_append_right l [x] d l.length (Nat.le_refl _)]
  simp

theorem getD_set_ne (l : List (List MessageParam)) (i j : Nat) (a d : List MessageParam)
    (h : i ≠ j) : (l.set i a).getD j d = l.getD j d := by
  rw [List.getD_eq_getD_get?, List.getD_eq_getD_get?, List.get?_eq_getElem?,
    List.get?_eq_getElem?, List.getElem?_set_ne h]

theorem storedHistory_append_self (s : ConversationStore) (tid : String)
    (msgs : List MessageParam) :
    (s.append tid msgs).storedHistory tid = s.storedHistory tid ++ msgs := by
  simp [ConversationStore.append, ConversationStore.storedHistory, ConversationStore.refOf,
    getD_concat_length]

theorem storedHistory_get_eq (s : ConversationStore) (tid tid2 : String) (hwf : s.WF) :
    (s.get tid).1.storedHistory tid2 = s.storedHistory tid2 := by
  unfold ConversationStore.get ConversationStore.storedHistory ConversationStore.refOf
  cases h : s.convs tid2 with
  | none => simp
  | some r =>
    simp only [h]
    rw [List.getD_append _ _ _ _ (hwf tid2 r h)]

theorem storedHistory_append_ne (s : ConversationStore) (tid tid2 : String)
    (msgs : List MessageParam) (h2 : tid2 ≠ tid) (hwf : s.WF) :
    (s.append tid msgs).storedHistory tid2 = s.storedHistory tid2 := by
  unfold ConversationStore.append ConversationStore.storedHistory ConversationStore.refOf
  simp only [if_neg h2]
  cases h : s.convs tid2 with
  | none => simp
  | some r =>
    simp only [h]
    rw [List.getD_append _ _ _ _ (hwf tid2 r h)]

theorem WF_append (s : ConversationStore) (tid : String) (msgs : List MessageParam)
    (hwf : s.WF) : (s.append tid msgs).WF := by
  intro tid2 r h
  unfold ConversationStore.append at h ⊢
  simp only at h ⊢
  by_cases he : tid2 = tid
  · rw [if_pos he] at h
    cases h
    simp
  · rw [if_neg he] at h
    have := hwf tid2 r h
    simp
    omega

theorem WF_get (s : ConversationStore) (tid : String) (hwf : s.WF) : (s.get tid).1.WF := by
  intro tid2 r h
  unfold ConversationStore.get at h ⊢
  simp only at h ⊢
  have := hwf tid2 r h
  simp
  omega

theorem NewConversationStore_WF : NewConversationStore.WF := by
  intro tid r h
  cases h

theorem storedHistory_mutate_fresh (s : ConversationStore) (tid tid2 : String)
    (i : Nat) (v : MessageParam) (hwf : s.WF) :
    ((s.get tid).1.mutate (s.get tid).2.1 i v).storedHistory tid2
      = s.storedHistory tid2 := by
  unfold ConversationStore.get ConversationStore.mutate ConversationStore.storedHistory
    ConversationStore.refOf
  simp only
  cases h : s.convs tid2 with
  | none => rfl
  | some r =>
    have hr := hwf tid2 r h
    dsimp only
    rw [getD_set_ne _ _ _ _ _ (Nat.ne_of_gt hr)]
    rw [List.getD_append _ _ _ _ hr]

/-- C5: the `ConversationStore` contract. `Get` on a thread id never
appended to returns the empty (non-null — Go's `make` with length 0)
sequence; after any sequence of `Append` calls, `Get` returns exactly
the appended messages in append order; and mutating the backing array
`Get` returned (through the fresh reference it allocated) never changes
what the store holds, so a later `Get` is unaffected. -/
theorem conversationStore_contract :
    (∀ (s : ConversationStore) (tid : String), s.refOf tid = none →
        (s.get tid).2.2 = [])
  ∧ (∀ (s : ConversationStore) (tid : String) (msgss : List (List MessageParam)),
        ((msgss.foldl (fun acc ms => acc.append tid ms) s).get tid).2.2
          = s.storedHistory tid ++ msgss.flatten)
  ∧ (∀ (s : ConversationStore) (tid tid2 : String) (i : Nat) (v : MessageParam),
        s.WF →
        ((s.get tid).1.mutate (s.get tid).2.1 i v).storedHistory tid2
          = s.storedHistory tid2) := by
  refine ⟨?_, ?_, ?_⟩
  · intro s tid h
    simp [ConversationStore.get, ConversationStore.storedHistory, h]
  · intro s tid msgss
    show (ConversationStore.get _ tid).2.2 = _
    induction msgss generalizing s with
    | nil => simp [ConversationStore.get]
    | cons ms mss ih =>
      simp only [List.foldl_cons, List.flatten_cons]
      rw [ih (s.append tid ms), storedHistory_append_self]
      simp [List.append_assoc]
  · intro s tid tid2 i v hwf
    exact storedHistory_mutate_fresh s tid tid2 i v hwf

/-- Witness for C5: on the fresh store, mutating the slice returned by
`Get` leaves the stored history unchanged. -/
theorem conversationStore_contract_witness :
    ((NewConversationStore.get "t").1.mutate (NewConversationStore.get "t").2.1 0
        (userTextMessage "x")).storedHistory "t"
      = NewConversationStore.storedHistory "t" :=
  conversationStore_contract.2.2 NewConversationStore "t" "t" 0 (userTextMessage "x")
    NewConversationStore_WF

/-! ## Claim C6: the tool registry -/

/-- C6: a registry with exactly one registered local tool and one added
server tool has exactly 2 definitions and is not empty; a freshly
created registry is empty, and `Execute` on any name fails with the
non-nil unknown-tool error without running any tool (there is none to
run; the result and error flag are the zero values). -/
theorem toolRegistry_contract :
    (∀ (t : RegisteredTool) (s : ToolUnionParam),
        ((NewToolRegistry.register t).addServerTool s).definitions.length = 2
          ∧ ((NewToolRegistry.register t).addServerTool s).isEmpty = false)
      ∧ NewToolRegistry.isEmpty = true
      ∧ (∀ (name : String) (input : GoValue),
          NewToolRegistry.execute name input
            = ⟨"", false, some ("unknown tool: " ++ name)⟩) := by
  refine ⟨fun t s => ⟨?_, ?_⟩, rfl, fun name input => rfl⟩
  · simp [ToolRegistry.definitions, ToolRegistry.register, ToolRegistry.addServerTool,
      NewToolRegistry, upsertTool]
  · simp [ToolRegistry.isEmpty, ToolRegistry.register, ToolRegistry.addServerTool,
      NewToolRegistry, upsertTool]

/-! ## Claim C8: MCP schema translation -/

/-- C8 counterexample: on a schema map that has no `properties` key but
does carry a well-typed `required` list, the translation does NOT
return "no required list": the string entries of `required` are still
carried over, so the claim's "empty-but-valid (empty property map, no
required list)" description fails for this input. -/
theorem mcpSchema_required_without_properties :
    (mcpSchemaToAnthropicSchema
        (some (GoValue.obj [("required", GoValue.arr [GoValue.str "a"])]))).required = ["a"]
      ∧ (["a"] : List String) ≠ [] :=
  ⟨rfl, by decide⟩

/-- C8 as amended: for a well-formed schema map the `properties` value
and every string entry of `required` are carried over; a nil schema or
a non-map schema degrades to the empty-but-valid schema (empty property
map, no required list); a map without `properties` degrades the
property map to empty, but any well-typed `required` entries are still
carried; and `required` is empty whenever the `required` key is absent
or not a JSON array. -/
theorem mcpSchemaToAnthropicSchema_spec :
    (mcpSchemaToAnthropicSchema none = ⟨GoValue.obj [], []⟩)
  ∧ (∀ v : GoValue, v.isObj = false →
      mcpSchemaToAnthropicSchema (some v) = ⟨GoValue.obj [], []⟩)
  ∧ (∀ m props, lookupField m "properties" = some props →
      (mcpSchemaToAnthropicSchema (some (GoValue.obj m))).properties = props)
  ∧ (∀ m, lookupField m "properties" = none →
      (mcpSchemaToAnthropicSchema (some (GoValue.obj m))).properties = GoValue.obj [])
  ∧ (∀ m xs, lookupField m "required" = some (GoValue.arr xs) →
      (mcpSchemaToAnthropicSchema (some (GoValue.obj m))).required
        = xs.filterMap (fun x => match x with | GoValue.str s => some s | _ => none))
  ∧ (∀ m, (match lookupField m "required" with
            | some (GoValue.arr _) => False
            | _ => True) →
      (mcpSchemaToAnthropicSchema (some (GoValue.obj m))).required = []) := by
  refine ⟨rfl, ?_, ?_, ?_, ?_, ?_⟩
  · intro v h
    cases v <;> simp_all [GoValue.isObj, mcpSchemaToAnthropicSchema]
  · intro m props h
    simp [mcpSchemaToAnthropicSchema, h]
  · intro m h
    simp [mcpSchemaToAnthropicSchema, h]
  · intro m xs h
    simp [mcpSchemaToAnthropicSchema, h]
  · intro m h
    unfold mcpSchemaToAnthropicSchema
    cases hr : lookupField m "required" with
    | none => simp [hr]
    | some v =>
      rw [hr] at h
      cases v <;> simp_all [hr]

/-- Witness for the amended C8 theorem: a well-formed schema's
properties value is carried over unchanged. -/
theorem mcpSchemaToAnthropicSchema_spec_witness :
    (mcpSchemaToAnthropicSchema (some (GoValue.obj
        [("properties", GoValue.obj [("p", GoValue.str "x")]),
         ("required", GoValue.arr [GoValue.str "p", GoValue.num 3])]))).properties
      = GoValue.obj [("p", GoValue.str "x")] :=
  mcpSchemaToAnthropicSchema_spec.2.2.1 _ _ (by rfl)

/-! ## Claim C7: tool-level error reporting of the filesystem tools -/

/-- C7: none of the three filesystem tools ever returns a non-nil Go
error (no process-level failure, for any filesystem and any input);
and each abnormal condition — invalid input, sandbox escape (or empty
path), not-found, is-a-directory, over-size — is reported as a
descriptive result string with the error flag set and a nil error.
The over-size condition is stated on the flag and error components;
its exact message is covered by the size-ceiling claim. -/
theorem filesystemTools_tool_level_errors :
    (∀ (fs : Fs) (cwd sb : String) (input : GoValue),
        (fsReadExecute fs cwd sb input).goErr = none
          ∧ (fsWriteExecute fs cwd sb input).goErr = none
          ∧ (fsListExecute fs cwd sb input).goErr = none)
  ∧ (∀ (fs : Fs) (cwd sb : String) (input : GoValue) (e : String),
        unmarshalFsReadInput input = Except.error e →
        fsReadExecute fs cwd sb input = ⟨"invalid input: " ++ e, true, none⟩)
  ∧ (∀ (fs : Fs) (cwd sb : String) (input : GoValue) (p : FsReadInput)
        (err : ResolveError),
        unmarshalFsReadInput input = Except.ok p →
        resolveSandboxedPath fs cwd sb p.path = Except.error err →
        fsReadExecute fs cwd sb input = ⟨err.message, true, none⟩)
  ∧ (∀ (fs : Fs) (cwd sb : String) (input : GoValue) (p : FsReadInput) (r : String),
        unmarshalFsReadInput input = Except.ok p →
        resolveSandboxedPath fs cwd sb p.path = Except.ok r →
        osStat fs r = none →
        fsReadExecute fs cwd sb input = ⟨"file not found: " ++ p.path, true, none⟩)
  ∧ (∀ (fs : Fs) (cwd sb : String) (input : GoValue) (p : FsReadInput) (r : String),
        unmarshalFsReadInput input = Except.ok p →
        resolveSandboxedPath fs cwd sb p.path = Except.ok r →
        osStat fs r = some FsNode.dir →
        fsReadExecute fs cwd sb input
          = ⟨"path is a directory, use fs_list instead", true, none⟩)
  ∧ (∀ (fs : Fs) (cwd sb : String) (input : GoValue) (p : FsReadInput)
        (r content : String),
        unmarshalFsReadInput input = Except.ok p →
        resolveSandboxedPath fs cwd sb p.path = Except.ok r →
        osStat fs r = some (FsNode.file content) →
        content.length > maxFileReadSize →
        (fsReadExecute fs cwd sb input).isError = true
          ∧ (fsReadExecute fs cwd sb input).goErr = none)
  ∧ (∀ (fs : Fs) (cwd sb : String) (input : GoValue) (p : FsWriteInput)
        (err : ResolveError),
        unmarshalFsWriteInput input = Except.ok p →
        resolveSandboxedPath fs cwd sb p.path = Except.error err →
        fsWriteExecute fs cwd sb input = ⟨err.message, true, none⟩)
  ∧ (∀ (fs : Fs) (cwd sb : String) (input : GoValue) (p : FsListInput)
        (err : ResolveError),
        unmarshalFsListInput input = Except.ok p →
        p.path ≠ "" →
        resolveSandboxedPath fs cwd sb p.path = Except.error err →
        fsListExecute fs cwd sb input = ⟨err.message, true, none⟩) := by
  refine ⟨?_, ?_, ?_, ?_, ?_, ?_, ?_, ?_⟩
  · intro fs cwd sb input
    refine ⟨?_, ?_, ?_⟩
    · unfold fsReadExecute
      repeat' split
      all_goals rfl
    · unfold fsWriteExecute
      repeat' split
      all_goals rfl
    · unfold fsListExecute
      dsimp only
      repeat' split
      all_goals rfl
  · intro fs cwd sb input e hu
    simp [fsReadExecute, hu]
  · intro fs cwd sb input p err hu hres
    simp [fsReadExecute, hu, hres]
  · intro fs cwd sb input p r hu hres hstat
    simp [fsReadExecute, hu, hres, hstat]
  · intro fs cwd sb input p r hu hres hstat
    simp [fsReadExecute, hu, hres, hstat]
  · intro fs cwd sb input p r content hu hres hstat hbig
    constructor <;> simp [fsReadExecute, hu, hres, hstat, hbig]
  · intro fs cwd sb input p err hu hres
    simp [fsWriteExecute, hu, hres]
  · intro fs cwd sb input p err hu hp hres
    simp [fsListExecute, hu, hp, hres]

/-- Witness for C7: `fs_read` on a directory returns the descriptive
tool-level error triple. -/
theorem filesystemTools_tool_level_errors_witness :
    fsReadExecute dirCaseFs "/" "/s" (GoValue.obj [("path", GoValue.str "subdir")])
      = ⟨"path is a directory, use fs_list instead", true, none⟩ :=
  filesystemTools_tool_level_errors.2.2.2.2.1 dirCaseFs "/" "/s"
    (GoValue.obj [("path", GoValue.str "subdir")]) ⟨"subdir"⟩ "/s/subdir"
    (by rfl) (by rfl) (by rfl)

/-! ## Claim C9: the fs_read size ceiling is exclusive -/

/-- C9: the ceiling is the fixed constant 1,048,576; a file whose size
is at most the ceiling (the boundary included) is read and returned
successfully, and the size-rejection branch fires exactly when the size
is strictly greater than the ceiling. -/
theorem fsRead_size_ceiling_exclusive
    (fs : Fs) (cwd sb : String) (input : GoValue) (p : FsReadInput)
    (r content : String)
    (hu : unmarshalFsReadInput input = Except.ok p)
    (hres : resolveSandboxedPath fs cwd sb p.path = Except.ok r)
    (hstat : osStat fs r = some (FsNode.file content)) :
    maxFileReadSize = 1048576
      ∧ (content.length ≤ maxFileReadSize →
          fsReadExecute fs cwd sb input = ⟨content, false, none⟩)
      ∧ (content.length > maxFileReadSize →
          fsReadExecute fs cwd sb input
            = ⟨"file too large: " ++ toString content.length ++ " bytes (max "
                ++ toString maxFileReadSize ++ ")", true, none⟩) := by
  refine ⟨by decide, ?_, ?_⟩
  · intro hsz
    simp [fsReadExecute, hu, hres, hstat, Nat.not_lt.mpr hsz]
  · intro hbig
    simp [fsReadExecute, hu, hres, hstat, hbig]

/-- Witness for C9: a file of exactly 1,048,576 bytes is read
successfully and returned whole. -/
theorem fsRead_size_ceiling_exclusive_witness :
    fsReadExecute exactCeilingFs "/" "/s" (GoValue.obj [("path", GoValue.str "big")])
      = ⟨exactCeilingContent, false, none⟩ :=
  (fsRead_size_ceiling_exclusive exactCeilingFs "/" "/s"
      (GoValue.obj [("path", GoValue.str "big")]) ⟨"big"⟩ "/s/big" exactCeilingContent
      (by rfl) (by rfl) (by rfl)).2.1
    (by show (List.replicate 1048576 'a').length ≤ maxFileReadSize
        rw [List.length_replicate]
        decide)

/-! ## Claim C3: the iteration budget of the agent loop -/

theorem runIterations_calls_le (b : ClaudeBot) (tid : String) :
    ∀ (rem calls : Nat) (store : ConversationStore),
      (runIterations b tid rem calls store).calls ≤ calls + rem := by
  intro rem
  induction rem with
  | zero => intro calls store; simp [runIterations]
  | succ n ih =>
    intro calls store
    simp only [runIterations]
    cases hc : b.claude (mkParams b (store.get tid).2.2) with
    | error e => dsimp only; omega
    | ok resp =>
      simp only [hc]
      split
      · dsimp only; omega
      · split
        · dsimp only; omega
        · split
          · dsimp only; omega
          · exact Nat.le_trans (ih (calls + 1) _) (by omega)

theorem hasLocalTool_hasTools (b : ClaudeBot) (name : String)
    (h : b.hasLocalTool name = true) : b.hasTools = true := by
  unfold ClaudeBot.hasLocalTool at h
  unfold ClaudeBot.hasTools
  cases hb : b.tools with
  | none => rw [hb] at h; cases h
  | some r =>
    rw [hb] at h
    dsimp only at h ⊢
    unfold ToolRegistry.hasLocalTool at h
    unfold ToolRegistry.isEmpty
    cases hl : r.localTools with
    | nil => rw [hl] at h; simp at h
    | cons a as => simp [hl]

theorem toolUseResult_isSome (b : ClaudeBot) (id name : String) (input : GoValue)
    (h : b.hasLocalTool name = true) :
    (toolUseResult b (ContentBlock.toolUse id name input)).isSome = true := by
  unfold toolUseResult
  dsimp only
  rw [if_pos h]
  have hb : ∃ r, b.tools = some r := by
    unfold ClaudeBot.hasLocalTool at h
    cases hbt : b.tools with
    | none => rw [hbt] at h; cases h
    | some r => exact ⟨r, rfl⟩
  obtain ⟨r, hr⟩ := hb
  simp only [hr]
  cases (r.execute name input).goErr <;> simp

theorem collectToolResults_nonempty (b : ClaudeBot) (content : List ContentBlock)
    (h : ∃ id name input, ContentBlock.toolUse id name input ∈ content
        ∧ b.hasLocalTool name = true) :
    (collectToolResults b content).isEmpty = false := by
  obtain ⟨id, name, input, hmem, hloc⟩ := h
  have hne : ¬ (content.filterMap (toolUseResult b) = []) := by
    rw [List.filterMap_eq_nil_iff]
    intro hall
    have hnon := hall _ hmem
    have hs := toolUseResult_isSome b id name input hloc
    rw [hnon] at hs
    cases hs
  unfold collectToolResults
  cases hE : (content.filterMap (toolUseResult b)).isEmpty
  · rfl
  · exact absurd (List.isEmpty_iff.mp hE) hne

theorem runIterations_exhausts (b : ClaudeBot) (tid : String)
    (hb : alwaysRequestsTools b) :
    ∀ (rem calls : Nat) (store : ConversationStore),
      (runIterations b tid rem calls store).calls = calls + rem
        ∧ (runIterations b tid rem calls store).text
            = "reached maximum tool use iterations"
        ∧ (runIterations b tid rem calls store).goErr = none := by
  intro rem
  induction rem with
  | zero => intro calls store; exact ⟨rfl, rfl, rfl⟩
  | succ n ih =>
    intro calls store
    obtain ⟨r, hok, hstop, id, name, input, hmem, hloc⟩ :=
      hb (mkParams b (store.get tid).2.2)
    have htools := hasLocalTool_hasTools b name hloc
    have hne := collectToolResults_nonempty b r.content ⟨id, name, input, hmem, hloc⟩
    have hgoal : runIterations b tid (n + 1) calls store
        = runIterations b tid n (calls + 1)
            (((store.get tid).1.append tid [r.toParam]).append tid
              [NewUserMessage (collectToolResults b r.content)]) := by
      simp [runIterations, hok, hstop, htools, hne]
    rw [hgoal]
    obtain ⟨h1, h2, h3⟩ := ih (calls + 1) _
    exact ⟨by rw [h1]; omega, h2, h3⟩

/-- C3: the loop makes at most `max(configuredMaxIterations, 1)` model
calls per run (the clamped budget equals that maximum, and a
non-positive configured value is treated as exactly 1); and when every
model response has stop reason tool use and carries a tool-use request
for a registered local tool, a configured cap of 3 produces exactly 3
model calls and the run returns the fixed sentinel string with a nil
error. -/
theorem agentLoop_iteration_budget :
    (∀ (b : ClaudeBot) (store : ConversationStore) (tid t : String),
        (getClaudeResponse b store tid t).calls ≤ effectiveMaxIterations b.config)
  ∧ (∀ cfg : Config, effectiveMaxIterations cfg = max cfg.maxToolIterations.toNat 1)
  ∧ (∀ cfg : Config, cfg.maxToolIterations ≤ 0 → effectiveMaxIterations cfg = 1)
  ∧ (∀ (b : ClaudeBot) (store : ConversationStore) (tid t : String),
      b.config.maxToolIterations = 3 → alwaysRequestsTools b →
      (getClaudeResponse b store tid t).calls = 3
        ∧ (getClaudeResponse b store tid t).text = "reached maximum tool use iterations"
        ∧ (getClaudeResponse b store tid t).goErr = none) := by
  refine ⟨?_, ?_, ?_, ?_⟩
  · intro b store tid t
    have h := runIterations_calls_le b tid (effectiveMaxIterations b.config) 0
      (store.append tid [userTextMessage t])
    simpa [getClaudeResponse] using h
  · intro cfg
    unfold effectiveMaxIterations
    split <;> omega
  · intro cfg h
    simp [effectiveMaxIterations, h]
  · intro b store tid t h3 hb
    have heff : effectiveMaxIterations b.config = 3 := by
      simp [effectiveMaxIterations, h3]
    have h := runIterations_exhausts b tid hb (effectiveMaxIterations b.config) 0
      (store.append tid [userTextMessage t])
    rw [heff] at h
    unfold getClaudeResponse
    rw [heff]
    exact h

/-- Witness for C3: the fixture bot with cap 3 whose model always
requests the registered tool makes exactly 3 calls and ends in the
sentinel. -/
theorem agentLoop_iteration_budget_witness :
    (getClaudeResponse loopBot NewConversationStore "t" "hi").calls = 3
      ∧ (getClaudeResponse loopBot NewConversationStore "t" "hi").text
          = "reached maximum tool use iterations"
      ∧ (getClaudeResponse loopBot NewConversationStore "t" "hi").goErr = none :=
  agentLoop_iteration_budget.2.2.2 loopBot NewConversationStore "t" "hi" rfl
    (fun p => ⟨⟨[ContentBlock.toolUse "tu1" "echo" GoValue.null], StopReason.toolUse⟩,
      rfl, rfl, "tu1", "echo", GoValue.null, by simp, by rfl⟩)

/-! ## Claim C4: model-call failure aborts without rollback -/

theorem runIterations_history_and_error (b : ClaudeBot) (tid : String) :
    ∀ (rem calls : Nat) (store : ConversationStore), store.WF →
      (∃ rest, (runIterations b tid rem calls store).store.storedHistory tid
          = store.storedHistory tid ++ rest)
        ∧ ((runIterations b tid rem calls store).goErr.isSome = true →
            (runIterations b tid rem calls store).text = ""
              ∧ ∃ e, (runIterations b tid rem calls store).goErr
                  = some ("claude API call failed: " ++ e)) := by
  intro rem
  induction rem with
  | zero =>
    intro calls store hwf
    exact ⟨⟨[], by simp [runIterations]⟩, by intro h; cases h⟩
  | succ n ih =>
    intro calls store hwf
    simp only [runIterations]
    cases hc : b.claude (mkParams b (store.get tid).2.2) with
    | error e =>
      refine ⟨⟨[], ?_⟩, ?_⟩
      · dsimp only
        rw [storedHistory_get_eq store tid tid hwf]
        simp
      · intro _
        exact ⟨rfl, e, rfl⟩
    | ok resp =>
      simp only [hc]
      have hwf1 : (store.get tid).1.WF := WF_get store tid hwf
      have hwf2 : ((store.get tid).1.append tid [resp.toParam]).WF :=
        WF_append _ tid _ hwf1
      have hst2 : ((store.get tid).1.append tid [resp.toParam]).storedHistory tid
          = store.storedHistory tid ++ [resp.toParam] := by
        rw [storedHistory_append_self, storedHistory_get_eq store tid tid hwf]
      split
      · exact ⟨⟨[resp.toParam], by dsimp only; rw [hst2]⟩, by intro h; cases h⟩
      · split
        · exact ⟨⟨[resp.toParam], by dsimp only; rw [hst2]⟩, by intro h; cases h⟩
        · split
          · exact ⟨⟨[resp.toParam], by dsimp only; rw [hst2]⟩, by intro h; cases h⟩
          · have hwf3 : (((store.get tid).1.append tid [resp.toParam]).append tid
                [NewUserMessage (collectToolResults b resp.content)]).WF :=
              WF_append _ tid _ hwf2
            obtain ⟨⟨rest, hrest⟩, herr⟩ := ih (calls + 1) _ hwf3
            refine ⟨⟨[resp.toParam, NewUserMessage (collectToolResults b resp.content)]
                ++ rest, ?_⟩, herr⟩
            rw [hrest, storedHistory_append_self, hst2]
            simp

/-- C4: when a model call fails in any iteration, the run returns the
wrapped transport error (with the empty result string) to the caller,
and the thread's history still begins with everything that was there
before the run followed by the user message appended at the start —
every message appended in earlier iterations is retained too (the
trailing `rest`); nothing is rolled back. -/
theorem getClaudeResponse_error_keeps_history (b : ClaudeBot) (store : ConversationStore)
    (tid t : String) (hwf : store.WF)
    (herr : (getClaudeResponse b store tid t).goErr.isSome = true) :
    (getClaudeResponse b store tid t).text = ""
      ∧ (∃ e, (getClaudeResponse b store tid t).goErr
          = some ("claude API call failed: " ++ e))
      ∧ (∃ rest, (getClaudeResponse b store tid t).store.storedHistory tid
          = store.storedHistory tid ++ userTextMessage t :: rest) := by
  have hwf1 : (store.append tid [userTextMessage t]).WF := WF_append store tid _ hwf
  obtain ⟨⟨rest, hrest⟩, hshape⟩ := runIterations_history_and_error b tid
    (effectiveMaxIterations b.config) 0 (store.append tid [userTextMessage t]) hwf1
  unfold getClaudeResponse at herr ⊢
  obtain ⟨htext, e, he⟩ := hshape herr
  refine ⟨htext, ⟨e, he⟩, ⟨rest, ?_⟩⟩
  rw [hrest, storedHistory_append_self]
  simp

/-- Witness for C4: on the always-failing fixture bot, the run reports
the wrapped error and the user message is still in the history. -/
theorem getClaudeResponse_error_keeps_history_witness :
    (getClaudeResponse failBot NewConversationStore "t" "hello").text = ""
      ∧ (∃ e, (getClaudeResponse failBot NewConversationStore "t" "hello").goErr
          = some ("claude API call failed: " ++ e))
      ∧ (∃ rest,
          (getClaudeResponse failBot NewConversationStore "t" "hello").store.storedHistory "t"
            = NewConversationStore.storedHistory "t" ++ userTextMessage "hello" :: rest) :=
  getClaudeResponse_error_keeps_history failBot NewConversationStore "t" "hello"
    NewConversationStore_WF (by rfl)

/-! ## Claim C10: a nil registry behaves like an empty one -/

/-- C10: with a nil tool registry the loop's `hasTools` guard is false
(the nil check short-circuits before any method call on the registry),
every request it builds carries no tool definitions, and a response
with stop reason tool use makes the run return that response's
extracted text immediately after exactly one model call, with no tool
execution and no further iteration — exactly the empty-registry
behaviour. -/
theorem getClaudeResponse_nil_registry (b : ClaudeBot) (store : ConversationStore)
    (tid t : String) (hnil : b.tools = none) :
    b.hasTools = false
      ∧ (∀ history : List MessageParam, (mkParams b history).tools = [])
      ∧ (∀ r : Message,
          b.claude (mkParams b ((store.append tid [userTextMessage t]).get tid).2.2)
            = Except.ok r →
          r.stopReason = StopReason.toolUse →
          (getClaudeResponse b store tid t).text = extractText r.content
            ∧ (getClaudeResponse b store tid t).calls = 1
            ∧ (getClaudeResponse b store tid t).goErr = none) := by
  have htools : b.hasTools = false := by
    unfold ClaudeBot.hasTools
    rw [hnil]
  refine ⟨htools, ?_, ?_⟩
  · intro history
    simp [mkParams, htools]
  · intro r hok hstop
    obtain ⟨n, hn⟩ : ∃ n, effectiveMaxIterations b.config = n + 1 := by
      unfold effectiveMaxIterations
      split
      · exact ⟨0, rfl⟩
      · rename_i hpos
        exact ⟨b.config.maxToolIterations.toNat - 1, by omega⟩
    unfold getClaudeResponse
    rw [hn]
    have hstep : runIterations b tid (n + 1) 0 (store.append tid [userTextMessage t])
        = ⟨extractText r.content, none, 0 + 1,
            ((store.append tid [userTextMessage t]).get tid).1.append tid [r.toParam]⟩ := by
      simp [runIterations, hok, hstop, htools]
    rw [hstep]
    exact ⟨rfl, rfl, rfl⟩

/-- Witness for C10: the nil-registry fixture bot, whose model answers
with stop reason tool use, returns the extracted text after one call. -/
theorem getClaudeResponse_nil_registry_witness :
    (getClaudeResponse nilRegistryBot NewConversationStore "t" "q").text
        = extractText [ContentBlock.text "hi there",
            ContentBlock.toolUse "tu9" "ghost" GoValue.null]
      ∧ (getClaudeResponse nilRegistryBot NewConversationStore "t" "q").calls = 1
      ∧ (getClaudeResponse nilRegistryBot NewConversationStore "t" "q").goErr = none :=
  (getClaudeResponse_nil_registry nilRegistryBot NewConversationStore "t" "q" rfl).2.2
    ⟨[ContentBlock.text "hi there", ContentBlock.toolUse "tu9" "ghost" GoValue.null],
      StopReason.toolUse⟩ rfl rfl
